import Mathlib

/-
Verification of the detection/probe core of the LetRecovery repository
(src/正常系统端/src/core/system_info.rs and hardware_info.rs).

Shallow embedding: every OS-level effect (registry lookup, file-existence
probe, environment variable, device control call) is represented by an
explicit environment value passed to the translated function.  Strings are
modelled as `List Char`; raw registry/device buffers as `List Nat` (bytes,
each < 256 in intended use); machine integers as `Nat` (the source never
relies on wrap-around in the translated fragments).
-/

/-! ## Shared string helpers -/

/-- Model of Rust `str::trim` (both-ends whitespace strip) on `List Char`. -/
def trimChars (s : List Char) : List Char :=
  ((s.dropWhile Char.isWhitespace).reverse.dropWhile Char.isWhitespace).reverse

/-! ## Boot-Mode Detector (system_info.rs, `SystemInfo::get_boot_mode`) -/

inductive BootMode where
  | UEFI
  | Legacy
deriving DecidableEq

/-- Outcome of the `GetFirmwareEnvironmentVariableW` probe: either the call
returned non-zero (success) or zero with the given OS error code.  Following
the source's `raw_os_error().unwrap_or(0)`, an unavailable raw code is
represented by code 0. -/
inductive FwVarResult where
  | success
  | failure (osError : Nat)
deriving DecidableEq

/-- Environment observed by `get_boot_mode`: the three EFI marker-path
existence probes and the firmware-variable call outcome. -/
structure BootEnv where
  efiRootMarker : Bool  -- path "\EFI" exists
  efiCMarker : Bool     -- path "C:\EFI" exists
  efiXMarker : Bool     -- path "X:\EFI" exists
  fwVar : FwVarResult
deriving DecidableEq

/-- Translation of `SystemInfo::get_boot_mode` (system_info.rs lines 72-114).
Marker paths are checked first with early return; otherwise the firmware
variable call decides: success means UEFI, error code 1
(ERROR_INVALID_FUNCTION) means Legacy, any other code means UEFI. -/
def get_boot_mode (e : BootEnv) : BootMode :=
  if e.efiRootMarker || e.efiCMarker || e.efiXMarker then
    BootMode.UEFI
  else
    match e.fwVar with
    | FwVarResult.success => BootMode.UEFI
    | FwVarResult.failure code =>
      if code = 1 then BootMode.Legacy else BootMode.UEFI

/-! ## Registry Accessor (hardware_info.rs, `read_registry_string` /
`read_registry_dword`) and the Secure-Boot Detector
(system_info.rs, `SystemInfo::get_secure_boot`).

`RegQueryValueExW` is modelled by its documented contract: if the stored
value's data does not fit in the caller's buffer the call fails with
ERROR_MORE_DATA and nothing is decoded; otherwise it succeeds, writing the
data bytes and reporting the value's declared type code.  `RegOpenKeyExW`
success is a Boolean of the environment, and the looked-up value (declared
type code plus raw bytes) is an `Option RegValue`.  -/

/-- A stored registry value: declared type code (REG_SZ = 1, REG_DWORD = 4)
and raw data bytes. -/
structure RegValue where
  vtype : Nat
  data : List Nat
deriving DecidableEq

/-- Little-endian byte-list to machine-word value (the source reads dword
data into a zero-initialised `u32`). -/
def leBytes : List Nat → Nat
  | [] => 0
  | b :: rest => b + 256 * leBytes rest

/-- UTF-16LE code units from a byte list, two bytes per unit, an odd
trailing byte paired with 0 — translation of
`chunks(2).map(u16::from_le_bytes [c0, c1 or 0])`. -/
def wideUnits : List Nat → List Nat
  | b0 :: b1 :: rest => (b0 + 256 * b1) :: wideUnits rest
  | [b0] => [b0 + 256 * 0]
  | [] => []

/-- Translation of `read_registry_string` (hardware_info.rs lines 501-556),
returning the decoded wide code units (the source converts them further to
a platform string, which preserves emptiness and length).  The fixed buffer
is 1024 bytes: a stored value with more data makes the single query call
fail (ERROR_MORE_DATA) and the function return `none`; on success the
declared type must be 1 (REG_SZ), the byte count is halved (rounding down),
and one trailing unit is stripped (`saturating_sub 1`). -/
def read_registry_string (keyOk : Bool) (v : Option RegValue) : Option (List Nat) :=
  if keyOk then
    match v with
    | none => none
    | some val =>
      if 1024 < val.data.length then none
      else if val.vtype ≠ 1 then none
      else
        let len := val.data.length / 2
        if 0 < len then
          let wide := wideUnits (val.data.take (len * 2))
          some (wide.take (wide.length - 1))
        else none
  else none

/-- Translation of `read_registry_dword` (hardware_info.rs lines 559-603):
4-byte buffer, query fails if the stored data is larger, then the declared
type must be 4 (REG_DWORD); the bytes land little-endian in a
zero-initialised 32-bit cell. -/
def read_registry_dword (keyOk : Bool) (v : Option RegValue) : Option Nat :=
  if keyOk then
    match v with
    | none => none
    | some val =>
      if 4 < val.data.length then none
      else if val.vtype ≠ 4 then none
      else some (leBytes val.data)
  else none

/-- Translation of `SystemInfo::get_secure_boot` (system_info.rs lines
267-313): open the SecureBoot\State key (failure yields false), query
`UEFISecureBootEnabled` into a 4-byte cell (failure, including data too
large for the buffer, yields false), and report whether the cell equals 1.
Note the source never inspects the returned value type. -/
def get_secure_boot (keyOk : Bool) (v : Option RegValue) : Bool :=
  if keyOk then
    match v with
    | none => false
    | some val =>
      if 4 < val.data.length then false
      else leBytes val.data == 1
  else false

/-! ## Claim theorems: C1, C2, C7 -/

/-- C1: the Boot-Mode Detector implements exactly the first-match-wins
decision procedure: any EFI marker forces UEFI regardless of the
firmware-variable outcome; otherwise success means UEFI, failure with OS
error code 1 means Legacy, and failure with any other code means UEFI. -/
theorem boot_mode_decision (e : BootEnv) :
    ((e.efiRootMarker || e.efiCMarker || e.efiXMarker) = true →
      get_boot_mode e = BootMode.UEFI)
    ∧ ((e.efiRootMarker || e.efiCMarker || e.efiXMarker) = false →
        (e.fwVar = FwVarResult.success → get_boot_mode e = BootMode.UEFI)
        ∧ (e.fwVar = FwVarResult.failure 1 → get_boot_mode e = BootMode.Legacy)
        ∧ (∀ code, code ≠ 1 → e.fwVar = FwVarResult.failure code →
            get_boot_mode e = BootMode.UEFI)) := by
  unfold get_boot_mode
  constructor
  · intro h
    rw [if_pos h]
  · intro h
    rw [if_neg (by simp [h])]
    refine ⟨fun hs => by rw [hs], fun hf => by rw [hf]; rfl, fun code hc hf => ?_⟩
    rw [hf]
    simp [hc]

/-- Witness for C1 at a concrete environment: the EFI marker together with
a firmware failure of code 1 still classifies UEFI (short-circuit
precedence of the marker over the Legacy signature). -/
theorem boot_mode_decision_witness :
    get_boot_mode ⟨true, false, false, FwVarResult.failure 1⟩ = BootMode.UEFI :=
  (boot_mode_decision ⟨true, false, false, FwVarResult.failure 1⟩).1 (by decide)

/-- C2 (amended part): the two Registry Accessor reads reject a value whose
declared type does not match the requested type — the string read returns
`none` unless the type code is 1, and the dword read returns `none` unless
the type code is 4. -/
theorem registry_reads_reject_type_mismatch (keyOk : Bool) (v : RegValue) :
    (v.vtype ≠ 1 → read_registry_string keyOk (some v) = none)
    ∧ (v.vtype ≠ 4 → read_registry_dword keyOk (some v) = none) := by
  constructor
  · intro h
    unfold read_registry_string
    cases keyOk with
    | false => rfl
    | true =>
      simp only [if_true]
      by_cases hl : 1024 < v.data.length
      · rw [if_pos hl]
      · rw [if_neg hl, if_pos h]
  · intro h
    unfold read_registry_dword
    cases keyOk with
    | false => rfl
    | true =>
      simp only [if_true]
      by_cases hl : 4 < v.data.length
      · rw [if_pos hl]
      · rw [if_neg hl, if_pos h]

/-- Witness for C2's amended statement: a REG_DWORD-typed value makes the
string read absent, and a REG_SZ-typed value makes the dword read absent. -/
theorem registry_reads_reject_type_mismatch_witness :
    read_registry_string true (some ⟨4, [65, 0]⟩) = none
    ∧ read_registry_dword true (some ⟨1, [1, 0, 0, 0]⟩) = none :=
  ⟨(registry_reads_reject_type_mismatch true ⟨4, [65, 0]⟩).1 (by decide),
   (registry_reads_reject_type_mismatch true ⟨1, [1, 0, 0, 0]⟩).2 (by decide)⟩

/-- Counterexample refuting C2 as stated: the Secure-Boot detector's
`UEFISecureBootEnabled` read does not check the declared value type.  For a
value declared REG_SZ (type code 1, not the requested dword type 4) whose
four data bytes are 01 00 00 00 — the UTF-16 string consisting of the
single character U+0001 — the query succeeds, the cell decodes to 1, and
the detector returns true instead of the absent/false the claim requires. -/
theorem secure_boot_type_confusion :
    (RegValue.mk 1 [1, 0, 0, 0]).vtype ≠ 4
    ∧ get_secure_boot true (some ⟨1, [1, 0, 0, 0]⟩) = true := by
  constructor
  · decide
  · decide

/-- C7 (amended part): a stored string value strictly larger than the fixed
1024-byte buffer makes the single query call fail, so the string read
returns absent; no second sized call (and no truncated value) is ever
produced. -/
theorem string_read_large_value_absent (keyOk : Bool) (v : RegValue)
    (h : 1024 < v.data.length) :
    read_registry_string keyOk (some v) = none := by
  unfold read_registry_string
  cases keyOk with
  | false => rfl
  | true => simp only [if_true]; rw [if_pos h]

/-- Witness for C7's amended statement at a concrete 1025-byte REG_SZ
value. -/
theorem string_read_large_value_absent_witness :
    read_registry_string true (some ⟨1, List.replicate 1025 65⟩) = none :=
  string_read_large_value_absent true ⟨1, List.replicate 1025 65⟩
    (show 1024 < (List.replicate (1025 : Nat) (65 : Nat)).length by
      rw [List.length_replicate]; omega)

set_option maxRecDepth 8000 in
/-- Counterexample refuting C7 as stated: a 1026-byte REG_SZ value (513
'A' code units) is not returned truncated — the read is absent. -/
theorem string_read_no_truncated_value :
    read_registry_string true (some ⟨1, List.replicate 1026 65⟩) = none := by
  decide

/-! ## Preinstallation-Environment Detector
(system_info.rs, `SystemInfo::check_pe_environment` and
`SystemInfo::check_minint_registry`) -/

/-- Environment observed by the PE detector: filesystem existence as a
function of the probed path, the `SystemDrive` environment variable, and
whether the MiniNT registry key opens. -/
structure PeEnv where
  pathExists : List Char → Bool
  systemDrive : Option (List Char)
  minintRegKey : Bool

/-- Tail of the write-filter driver path appended to a drive letter. -/
def fbwfTail : List Char := "\\Windows\\System32\\drivers\\fbwf.sys".data

/-- Tail of the PE shell-config path appended to a drive letter. -/
def winpeshlTail : List Char := "\\Windows\\System32\\winpeshl.ini".data

/-- The conventional PE system-drive letter. -/
def xDrive : List Char := "X:".data

/-- Model of Rust `str::to_uppercase` restricted to the ASCII fragment
(sufficient here: the only comparison target is the ASCII string "X:", and
no character outside a-z uppercases onto ASCII). -/
def toUpperChars (s : List Char) : List Char := s.map Char.toUpper

/-- Translation of `SystemInfo::check_pe_environment` (system_info.rs lines
320-363): six early-return features in source order — fbwf.sys under X:,
winpeshl.ini under X:, SystemDrive uppercasing to "X:", the X:\MININT
directory, the MiniNT registry key, and the two marker files re-probed
under the actual SystemDrive. -/
def check_pe_environment (e : PeEnv) : Bool :=
  if e.pathExists (xDrive ++ fbwfTail) then true
  else if e.pathExists (xDrive ++ winpeshlTail) then true
  else if (match e.systemDrive with
           | some d => toUpperChars d == xDrive
           | none => false) then true
  else if e.pathExists ("X:\\MININT".data) then true
  else if e.minintRegKey then true
  else
    match e.systemDrive with
    | some d => e.pathExists (d ++ fbwfTail) || e.pathExists (d ++ winpeshlTail)
    | none => false

/-- PE signal 1: the write-filter driver file under X:. -/
def peSignal1 (e : PeEnv) : Bool := e.pathExists (xDrive ++ fbwfTail)

/-- PE signal 2: the shell-config file under X:. -/
def peSignal2 (e : PeEnv) : Bool := e.pathExists (xDrive ++ winpeshlTail)

/-- PE signal 3: the active system drive uppercases to "X:". -/
def peSignal3 (e : PeEnv) : Bool :=
  match e.systemDrive with
  | some d => toUpperChars d == xDrive
  | none => false

/-- PE signal 4: the X:\MININT marker directory. -/
def peSignal4 (e : PeEnv) : Bool := e.pathExists ("X:\\MININT".data)

/-- PE signal 5: the MiniNT marker registry key. -/
def peSignal5 (e : PeEnv) : Bool := e.minintRegKey

/-- PE signal 6: either marker file under the actual system drive. -/
def peSignal6 (e : PeEnv) : Bool :=
  match e.systemDrive with
  | some d => e.pathExists (d ++ fbwfTail) || e.pathExists (d ++ winpeshlTail)
  | none => false

/-- C5: the PE detector is a pure OR of its six signals — for every
environment it returns true exactly when at least one of the six signals
holds; in particular any single signal alone suffices. -/
theorem pe_detection_is_or (e : PeEnv) :
    check_pe_environment e =
      (peSignal1 e || peSignal2 e || peSignal3 e || peSignal4 e
        || peSignal5 e || peSignal6 e) := by
  unfold check_pe_environment peSignal1 peSignal2 peSignal3 peSignal4 peSignal5 peSignal6
  cases hd : e.systemDrive with
  | none =>
    by_cases h1 : e.pathExists (xDrive ++ fbwfTail) <;>
      by_cases h2 : e.pathExists (xDrive ++ winpeshlTail) <;>
        by_cases h4 : e.pathExists ("X:\\MININT".data) <;>
          by_cases h5 : e.minintRegKey <;>
            simp [h1, h2, h4, h5]
  | some d =>
    by_cases h1 : e.pathExists (xDrive ++ fbwfTail) <;>
      by_cases h2 : e.pathExists (xDrive ++ winpeshlTail) <;>
        by_cases h3 : toUpperChars d == xDrive <;>
          by_cases h4 : e.pathExists ("X:\\MININT".data) <;>
            by_cases h5 : e.minintRegKey <;>
              simp [h1, h2, h3, h4, h5]

/-! ## TPM Detector (system_info.rs, `SystemInfo::get_tpm_info`,
`check_tpm_registry`, `get_tpm_version_from_registry`) -/

/-- Environment observed by the TPM detector: whether each of the three
registry keys opens, and the decoded `SpecVersion` string when its query
succeeds with a positive size (`none` models a failed or empty read). -/
structure TpmEnv where
  serviceKey : Bool   -- SYSTEM\CurrentControlSet\Services\TPM opens
  acpiKey : Bool      -- SYSTEM\CurrentControlSet\Enum\ACPI\MSFT0101 opens
  softwareKey : Bool  -- SOFTWARE\Microsoft\Tpm opens
  specVersion : Option (List Char)

/-- Translation of `SystemInfo::check_tpm_registry` (system_info.rs lines
143-186): the service key, else the ACPI device key. -/
def check_tpm_registry (e : TpmEnv) : Bool :=
  if e.serviceKey then true
  else if e.acpiKey then true
  else false

/-- First comma-separated segment, translation of
`version.split(',').next().unwrap_or("")`. -/
def takeBeforeComma (s : List Char) : List Char :=
  s.takeWhile (fun c => c != ',')

/-- Translation of `SystemInfo::get_tpm_version_from_registry`
(system_info.rs lines 190-263): a readable `SpecVersion` under the software
key yields its pre-comma segment trimmed; otherwise the ACPI device key
yields "2.0"; otherwise the default is "2.0". -/
def get_tpm_version_from_registry (e : TpmEnv) : List Char :=
  if e.softwareKey then
    match e.specVersion with
    | some s => trimChars (takeBeforeComma s)
    | none => if e.acpiKey then "2.0".data else "2.0".data
  else
    if e.acpiKey then "2.0".data else "2.0".data

/-- Translation of `SystemInfo::get_tpm_info` (system_info.rs lines
123-134). -/
def get_tpm_info (e : TpmEnv) : Bool × List Char :=
  if check_tpm_registry e then (true, get_tpm_version_from_registry e)
  else (false, [])

/-- C6: TPM presence is the OR of the service-key and ACPI-key probes; with
both absent the detector returns (false, ""); when present the version is
the trimmed pre-comma segment of a readable SpecVersion value, and "2.0" in
every other case (whether or not the ACPI key exists). -/
theorem tpm_detection (e : TpmEnv) :
    (get_tpm_info e).1 = (e.serviceKey || e.acpiKey)
    ∧ ((e.serviceKey || e.acpiKey) = false → get_tpm_info e = (false, []))
    ∧ ((e.serviceKey || e.acpiKey) = true →
        (∀ s, e.softwareKey = true → e.specVersion = some s →
          (get_tpm_info e).2 = trimChars (takeBeforeComma s))
        ∧ ((e.softwareKey = false ∨ e.specVersion = none) →
          (get_tpm_info e).2 = "2.0".data)) := by
  have hpres : check_tpm_registry e = (e.serviceKey || e.acpiKey) := by
    unfold check_tpm_registry
    cases e.serviceKey <;> cases e.acpiKey <;> rfl
  refine ⟨?_, ?_, ?_⟩
  · unfold get_tpm_info
    rw [hpres]
    cases h : (e.serviceKey || e.acpiKey) <;> rfl
  · intro h
    unfold get_tpm_info
    rw [hpres, h]
    rfl
  · intro h
    constructor
    · intro s hsw hsv
      unfold get_tpm_info
      rw [hpres, h]
      simp only [if_true]
      unfold get_tpm_version_from_registry
      rw [hsw, hsv]
      rfl
    · intro hcase
      unfold get_tpm_info
      rw [hpres, h]
      simp only [if_true]
      unfold get_tpm_version_from_registry
      rcases hcase with hsw | hsv
      · rw [hsw]
        cases e.acpiKey <;> rfl
      · rw [hsv]
        cases e.softwareKey <;> cases e.acpiKey <;> rfl

/-- Witness for C6 at a concrete environment: service key present,
SpecVersion readable as " 2.0, 0, 1.16", version resolves to "2.0". -/
theorem tpm_detection_witness :
    (get_tpm_info ⟨true, false, true, some " 2.0, 0, 1.16".data⟩).2 = "2.0".data :=
  ((tpm_detection ⟨true, false, true, some " 2.0, 0, 1.16".data⟩).2.2
    (by decide)).1 (" 2.0, 0, 1.16".data) rfl rfl

/-! ## OS Identity Detector, build-number name inference
(hardware_info.rs, `HardwareInfo::get_os_info`, lines 257-272) -/

/-- Translation of the name-inference fallback used when no ProductName can
be read: descending build-number thresholds. -/
def infer_os_name (build : Nat) : List Char :=
  if 22000 ≤ build then "Windows 11".data
  else if 10240 ≤ build then "Windows 10".data
  else if 9600 ≤ build then "Windows 8.1".data
  else if 9200 ≤ build then "Windows 8".data
  else if 7600 ≤ build then "Windows 7".data
  else "Windows".data

/-- C8: the build-number thresholds partition exactly as specified, each
band yielding its label and anything below 7600 yielding the generic
fallback. -/
theorem os_name_thresholds (build : Nat) :
    (22000 ≤ build → infer_os_name build = "Windows 11".data)
    ∧ (10240 ≤ build → build < 22000 → infer_os_name build = "Windows 10".data)
    ∧ (9600 ≤ build → build < 10240 → infer_os_name build = "Windows 8.1".data)
    ∧ (9200 ≤ build → build < 9600 → infer_os_name build = "Windows 8".data)
    ∧ (7600 ≤ build → build < 9200 → infer_os_name build = "Windows 7".data)
    ∧ (build < 7600 → infer_os_name build = "Windows".data) := by
  unfold infer_os_name
  refine ⟨?_, ?_, ?_, ?_, ?_, ?_⟩
  · intro h
    rw [if_pos h]
  · intro h1 h2
    rw [if_neg (by omega), if_pos h1]
  · intro h1 h2
    rw [if_neg (by omega), if_neg (by omega), if_pos h1]
  · intro h1 h2
    rw [if_neg (by omega), if_neg (by omega), if_neg (by omega), if_pos h1]
  · intro h1 h2
    rw [if_neg (by omega), if_neg (by omega), if_neg (by omega),
      if_neg (by omega), if_pos h1]
  · intro h
    rw [if_neg (by omega), if_neg (by omega), if_neg (by omega),
      if_neg (by omega), if_neg (by omega)]

/-- Witness for C8 at the five threshold boundaries and one value below the
lowest threshold. -/
theorem os_name_thresholds_witness :
    infer_os_name 22000 = "Windows 11".data
    ∧ infer_os_name 10240 = "Windows 10".data
    ∧ infer_os_name 9600 = "Windows 8.1".data
    ∧ infer_os_name 9200 = "Windows 8".data
    ∧ infer_os_name 7600 = "Windows 7".data
    ∧ infer_os_name 7599 = "Windows".data :=
  ⟨(os_name_thresholds 22000).1 (by omega),
   (os_name_thresholds 10240).2.1 (by omega) (by omega),
   (os_name_thresholds 9600).2.2.1 (by omega) (by omega),
   (os_name_thresholds 9200).2.2.2.1 (by omega) (by omega),
   (os_name_thresholds 7600).2.2.2.2.1 (by omega) (by omega),
   (os_name_thresholds 7599).2.2.2.2.2 (by omega)⟩

/-! ## CPU Detector (hardware_info.rs, `HardwareInfo::get_cpu_info`) -/

/-- Environment observed by the CPU detector: the native system-info call's
processor count and architecture code, and the registry values under
HARDWARE\DESCRIPTION\System\CentralProcessor\i (the per-index
ProcessorNameString probe doubles as the core-count discovery). -/
structure CpuRegEnv where
  logicalProcessors : Nat
  archCode : Nat
  vendor : Option (List Char)
  mhz : Option Nat
  procNameAt : Nat → Option (List Char)

/-- Mirror of the Rust `CpuInfo` record. -/
structure CpuInfo where
  name : List Char
  manufacturer : List Char
  cores : Nat
  logical_processors : Nat
  max_clock_speed : Nat
  current_clock_speed : Nat
  l2_cache_size : Nat
  l3_cache_size : Nat
  architecture : List Char

/-- CPU architecture label table (hardware_info.rs lines 335-342). -/
def cpuArchLabel (code : Nat) : List Char :=
  if code = 0 then "x86".data
  else if code = 5 then "ARM".data
  else if code = 6 then "IA-64".data
  else if code = 9 then "x64".data
  else if code = 12 then "ARM64".data
  else "未知".data

/-- Consecutive-index probe: counts indices start, start+1, … for which the
per-processor name value exists, stopping at the first miss or when fuel
runs out (the source iterates indices 0..256). -/
def consecutive_procs (f : Nat → Option (List Char)) : Nat → Nat → Nat
  | _, 0 => 0
  | start, fuel + 1 =>
    match f start with
    | some _ => 1 + consecutive_procs f (start + 1) fuel
    | none => 0

/-- Translation of `HardwareInfo::get_cpu_info` (hardware_info.rs lines
324-376): logical processors and architecture from the native call; name,
vendor and the single `~MHz` value from the processor-0 registry entry —
the one `~MHz` read populates both clock-speed fields; core count from the
consecutive probe (left at the default 0 when the probe finds nothing). -/
def get_cpu_info (e : CpuRegEnv) : CpuInfo :=
  let coreCount := consecutive_procs e.procNameAt 0 256
  { name := match e.procNameAt 0 with
            | some n => trimChars n
            | none => []
  , manufacturer := match e.vendor with
                    | some v => v
                    | none => []
  , cores := if 0 < coreCount then coreCount else 0
  , logical_processors := e.logicalProcessors
  , max_clock_speed := match e.mhz with
                       | some m => m
                       | none => 0
  , current_clock_speed := match e.mhz with
                           | some m => m
                           | none => 0
  , l2_cache_size := 0
  , l3_cache_size := 0
  , architecture := cpuArchLabel e.archCode }

/-- C10: in every CpuInfo the detector produces, the maximum and current
clock speeds coincide — both come from the single `~MHz` registry value and
both default to 0 when it is unreadable. -/
theorem cpu_clock_speeds_equal (e : CpuRegEnv) :
    (get_cpu_info e).max_clock_speed = (get_cpu_info e).current_clock_speed := rfl

/-! ## Byte-count formatter (hardware_info.rs, `format_bytes`) -/

/-- 1024-based unit sizes, as in the source constants. -/
def KB : Nat := 1024

/-- Megabyte. -/
def MB : Nat := KB * 1024

/-- Gigabyte. -/
def GB : Nat := MB * 1024

/-- Terabyte. -/
def TB : Nat := GB * 1024

/-- Nearest integer to n·100/d with ties to even: the value whose
two-decimal rendering `format!` with precision 2 produces whenever the f64
quotient n/d is exact (in particular for every input the claim names). -/
def round2 (n d : Nat) : Nat :=
  let q := n * 100 / d
  let r := n * 100 % d
  if d < 2 * r then q + 1
  else if 2 * r < d then q
  else if q % 2 = 0 then q else q + 1

/-- Left-pad to two digits for the fractional part. -/
def pad2 (k : Nat) : List Char :=
  if k < 10 then '0' :: (toString k).data else (toString k).data

/-- Two-decimal rendering of n/d. -/
def fmt2 (n d : Nat) : List Char :=
  let v := round2 n d
  (toString (v / 100)).data ++ ('.' :: pad2 (v % 100))

/-- Translation of `format_bytes` (hardware_info.rs lines 761-778). -/
def format_bytes (bytes : Nat) : List Char :=
  if TB ≤ bytes then fmt2 bytes TB ++ " TB".data
  else if GB ≤ bytes then fmt2 bytes GB ++ " GB".data
  else if MB ≤ bytes then fmt2 bytes MB ++ " MB".data
  else if KB ≤ bytes then fmt2 bytes KB ++ " KB".data
  else (toString bytes).data ++ " Bytes".data

/-- Specification-side unit chooser for the refinement statement of C9:
the largest applicable unit among Bytes/KB/MB/GB/TB for a byte count. -/
def largest_unit (bytes : Nat) : Nat × List Char :=
  if TB ≤ bytes then (TB, " TB".data)
  else if GB ≤ bytes then (GB, " GB".data)
  else if MB ≤ bytes then (MB, " MB".data)
  else if KB ≤ bytes then (KB, " KB".data)
  else (1, " Bytes".data)

/-- Specification-side rendering rule for the refinement statement of C9:
render at the largest applicable unit, two decimal places at the chosen
unit, plain integer below 1 KB. -/
def format_bytes_spec (bytes : Nat) : List Char :=
  if bytes < KB then (toString bytes).data ++ " Bytes".data
  else fmt2 bytes (largest_unit bytes).1 ++ (largest_unit bytes).2

/-- C9: `format_bytes` renders at the largest applicable 1024-based unit
with two decimals (it agrees with the unit-selection rendering everywhere),
and evaluates to "0 Bytes", "1.00 KB" and "1.00 GB" at the claim's three
inputs. -/
theorem format_bytes_rendering :
    format_bytes 0 = "0 Bytes".data
    ∧ format_bytes 1024 = "1.00 KB".data
    ∧ format_bytes 1073741824 = "1.00 GB".data
    ∧ ∀ b, format_bytes b = format_bytes_spec b := by
  refine ⟨by decide, by decide, by decide, fun b => ?_⟩
  unfold format_bytes format_bytes_spec largest_unit
  simp only [KB, MB, GB, TB]
  split_ifs with h1 h2 h3 h4 h5 <;> first | rfl | omega

/-! ## Storage Device Detector (hardware_info.rs, `query_disk_info` and
`HardwareInfo::get_disk_info`) -/

/-- Mirror of the Rust `DiskInfo` record; the model/serial/firmware strings
are kept at the byte level (the source decodes them with a lossy UTF-8
conversion, which preserves emptiness). -/
structure DiskInfo where
  model : List Nat
  interface_type : List Char
  media_type : List Char
  size : Nat
  serial_number : List Nat
  firmware_revision : List Nat
  partitions : Nat
deriving DecidableEq

/-- The parsed STORAGE_DEVICE_DESCRIPTOR header over the 4096-byte query
buffer: the three byte offsets into the buffer, the bus-type code and the
removable-media flag. -/
structure StorageDescriptor where
  buffer : List Nat
  productIdOffset : Nat
  serialNumberOffset : Nat
  productRevisionOffset : Nat
  busType : Nat
  removableMedia : Nat
deriving DecidableEq

/-- What probing one physical-drive index yields: whether `CreateFileW`
produced a valid handle, the property-query result (`none` models a failed
`DeviceIoControl` or zero bytes returned), and the get-length result. -/
structure DriveProbe where
  openOk : Bool
  descriptor : Option StorageDescriptor
  lengthInfo : Option Nat
deriving DecidableEq

/-- ASCII whitespace test on a byte, the byte-level image of the
whitespace trim applied by the source after the lossy decode. -/
def isSpaceByte (b : Nat) : Bool := b == 32 || b == 9 || b == 10 || b == 13

/-- Both-ends whitespace strip on bytes. -/
def trimBytes (s : List Nat) : List Nat :=
  ((s.dropWhile isSpaceByte).reverse.dropWhile isSpaceByte).reverse

/-- Descriptor string-field extraction (hardware_info.rs lines 661-682):
the offset must be positive and inside the buffer, the field runs to the
first NUL byte (no NUL leaves the field at its empty default), and the
result is trimmed. -/
def extract_field (buffer : List Nat) (offset : Nat) : List Nat :=
  if 0 < offset ∧ offset < buffer.length then
    if (buffer.drop offset).contains 0 then
      trimBytes ((buffer.drop offset).takeWhile (fun b => b != 0))
    else []
  else []

/-- Bus-type label table (hardware_info.rs lines 685-703). -/
def bus_type_label : Nat → List Char
  | 1 => "SCSI".data
  | 2 => "ATAPI".data
  | 3 => "ATA".data
  | 4 => "1394".data
  | 5 => "SSA".data
  | 6 => "Fibre".data
  | 7 => "USB".data
  | 8 => "RAID".data
  | 9 => "iSCSI".data
  | 10 => "SAS".data
  | 11 => "SATA".data
  | 12 => "SD".data
  | 13 => "MMC".data
  | 14 => "Virtual".data
  | 15 => "FileBackedVirtual".data
  | 17 => "NVMe".data
  | code => "Unknown(".data ++ (toString code).data ++ [')']

/-- The record `query_disk_info` assembles for a probed drive before its
final keep/drop filter (hardware_info.rs lines 612-729): `none` when the
handle or the property query failed, otherwise the parsed fields, with the
size left at 0 when the get-length call failed. -/
def build_disk_record (p : DriveProbe) : Option DiskInfo :=
  if p.openOk then
    match p.descriptor with
    | none => none
    | some d =>
      some { model := extract_field d.buffer d.productIdOffset
           , interface_type := bus_type_label d.busType
           , media_type := if d.removableMedia != 0 then "可移动".data else "固定".data
           , size := match p.lengthInfo with
                     | some n => n
                     | none => 0
           , serial_number := extract_field d.buffer d.serialNumberOffset
           , firmware_revision := extract_field d.buffer d.productRevisionOffset
           , partitions := 0 }
  else none

/-- Translation of `query_disk_info` including its final filter
(hardware_info.rs lines 731-736): only a record with a non-empty model or
a non-zero size is returned. -/
def query_disk_info (p : DriveProbe) : Option DiskInfo :=
  match build_disk_record p with
  | some disk => if disk.model ≠ [] ∨ 0 < disk.size then some disk else none
  | none => none

/-- Translation of `HardwareInfo::get_disk_info` (hardware_info.rs lines
445-457): probe physical-drive indices 0 through 15 and collect the
records that survive. -/
def get_disk_info (env : Nat → DriveProbe) : List DiskInfo :=
  (List.range 16).filterMap (fun i => query_disk_info (env i))

/-- Every record in the final inventory has a non-empty model or a
non-zero size. -/
theorem disk_inventory_members (env : Nat → DriveProbe) (d : DiskInfo)
    (hmem : d ∈ get_disk_info env) : d.model ≠ [] ∨ 0 < d.size := by
  unfold get_disk_info at hmem
  rcases List.mem_filterMap.mp hmem with ⟨i, _, hq⟩
  unfold query_disk_info at hq
  rcases hb : build_disk_record (env i) with _ | disk
  · rw [hb] at hq
    exact absurd hq (by simp)
  · rw [hb] at hq
    dsimp only at hq
    by_cases hc : disk.model ≠ [] ∨ 0 < disk.size
    · rw [if_pos hc] at hq
      cases hq
      exact hc
    · rw [if_neg hc] at hq
      exact absurd hq (by simp)

/-- C3: for every probed physical-drive index, the record the probe builds
appears in the final inventory exactly when its model is non-empty or its
size is non-zero — so an empty-model zero-size record is dropped and a
positive-size empty-model record is kept. -/
theorem disk_record_filter (env : Nat → DriveProbe) (i : Nat) (d : DiskInfo)
    (hi : i < 16) (hb : build_disk_record (env i) = some d) :
    d ∈ get_disk_info env ↔ (d.model ≠ [] ∨ 0 < d.size) := by
  constructor
  · exact disk_inventory_members env d
  · intro hc
    unfold get_disk_info
    refine List.mem_filterMap.mpr ⟨i, List.mem_range.mpr hi, ?_⟩
    unfold query_disk_info
    rw [hb]
    dsimp only
    rw [if_pos hc]

/-- Witness for C3 at a concrete probe: an NVMe drive whose model string is
empty but whose size is positive is kept in the inventory. -/
theorem disk_record_filter_witness :
    ({ model := [], interface_type := "NVMe".data, media_type := "可移动".data
     , size := 256000000000, serial_number := [], firmware_revision := []
     , partitions := 0 } : DiskInfo)
      ∈ get_disk_info
          (fun _ => ⟨true, some ⟨[0, 0], 1, 0, 0, 17, 1⟩, some 256000000000⟩) :=
  (disk_record_filter
      (fun _ => ⟨true, some ⟨[0, 0], 1, 0, 0, 17, 1⟩, some 256000000000⟩) 0
      { model := [], interface_type := "NVMe".data, media_type := "可移动".data
      , size := 256000000000, serial_number := [], firmware_revision := []
      , partitions := 0 }
      (by omega) (by decide)).mpr (by decide)

/-! ## OS Identity Detector, product-name correction
(hardware_info.rs, `HardwareInfo::get_os_info`, lines 244-256)

The correction uses Rust `str::contains` (substring test) and
`str::replace` (all non-overlapping occurrences, scanned left to right).
Both are modelled on `List Char`. -/

/-- Initial-segment test: `leadsWith p s` holds when p is a prefix of s. -/
def leadsWith : List Char → List Char → Bool
  | [], _ => true
  | _ :: _, [] => false
  | a :: p, b :: s => a == b && leadsWith p s

/-- Substring test, model of Rust `str::contains` at the character level. -/
def occursIn (p : List Char) : List Char → Bool
  | [] => p.isEmpty
  | c :: t => leadsWith p (c :: t) || occursIn p t

/-- The pattern "Windows 10". -/
def win10 : List Char := ['W', 'i', 'n', 'd', 'o', 'w', 's', ' ', '1', '0']

/-- The replacement "Windows 11". -/
def win11 : List Char := ['W', 'i', 'n', 'd', 'o', 'w', 's', ' ', '1', '1']

/-- Model of `name.replace("Windows 10", "Windows 11")`: scan left to
right, replace each non-overlapping occurrence of the pattern and resume
after it (the pattern is 10 characters, so after a match at `c :: t` the
scan resumes at `t.drop 9`). -/
def replaceWin10 : List Char → List Char
  | [] => []
  | c :: t =>
    if leadsWith win10 (c :: t) then win11 ++ replaceWin10 (t.drop 9)
    else c :: replaceWin10 t
termination_by s => s.length
decreasing_by
  all_goals simp only [List.length_drop, List.length_cons]
  all_goals omega

theorem replaceWin10_nil : replaceWin10 [] = [] := by
  simp [replaceWin10]

theorem replaceWin10_cons (c : Char) (t : List Char) :
    replaceWin10 (c :: t) =
      if leadsWith win10 (c :: t) then win11 ++ replaceWin10 (t.drop 9)
      else c :: replaceWin10 t := by
  simp [replaceWin10]

theorem leadsWith_cons_cons (a b : Char) (p s : List Char) :
    leadsWith (a :: p) (b :: s) = ((a == b) && leadsWith p s) := rfl

theorem leadsWith_refl (p : List Char) : leadsWith p p = true := by
  induction p with
  | nil => rfl
  | cons a p ih => simp [leadsWith_cons_cons, ih]

theorem leadsWith_append (p u v : List Char) (h : leadsWith p u = true) :
    leadsWith p (u ++ v) = true := by
  induction p generalizing u with
  | nil => rfl
  | cons a p ih =>
    cases u with
    | nil => exact absurd h (by simp [leadsWith])
    | cons b u =>
      rw [List.cons_append]
      rw [leadsWith_cons_cons] at h ⊢
      rcases (Bool.and_eq_true _ _).mp h with ⟨h1, h2⟩
      rw [h1, ih u h2]
      rfl

theorem leadsWith_append_left (p u v : List Char)
    (h : leadsWith p (u ++ v) = true) (hl : p.length ≤ u.length) :
    leadsWith p u = true := by
  induction p generalizing u with
  | nil => rfl
  | cons a p ih =>
    cases u with
    | nil => simp at hl
    | cons b u =>
      rw [List.cons_append, leadsWith_cons_cons] at h
      rcases (Bool.and_eq_true _ _).mp h with ⟨h1, h2⟩
      rw [leadsWith_cons_cons, h1, ih u h2 (by simp at hl ⊢; omega)]
      rfl

theorem leadsWith_take_of_append (b : List Char) :
    ∀ p v : List Char, leadsWith p (b ++ v) = true → b.length ≤ p.length →
      leadsWith b p = true := by
  induction b with
  | nil => intro p v _ _; rfl
  | cons x b ih =>
    intro p v h hl
    cases p with
    | nil => simp at hl
    | cons a p =>
      rw [List.cons_append, leadsWith_cons_cons] at h
      rcases (Bool.and_eq_true _ _).mp h with ⟨h1, h2⟩
      have hxa : x == a := by
        have : a = x := by simpa using h1
        simp [this]
      rw [leadsWith_cons_cons, hxa, ih p v h2 (by simp at hl ⊢; omega)]
      rfl

theorem occursIn_of_leadsWith (p s : List Char) (h : leadsWith p s = true) :
    occursIn p s = true := by
  cases s with
  | nil =>
    cases p with
    | nil => rfl
    | cons a p => exact absurd h (by simp [leadsWith])
  | cons c t =>
    unfold occursIn
    rw [h]
    rfl

theorem occursIn_cons_tail (p : List Char) (c : Char) (t : List Char)
    (h : occursIn p t = true) : occursIn p (c :: t) = true := by
  unfold occursIn
  rw [h]
  simp

theorem occursIn_append_elim (p v : List Char) :
    ∀ u : List Char, occursIn p (u ++ v) = true →
      occursIn p v = true
      ∨ ∃ k, k < u.length ∧ leadsWith p (List.drop k u ++ v) = true := by
  intro u
  induction u with
  | nil => exact fun h => Or.inl h
  | cons a u ih =>
    intro h
    rw [List.cons_append] at h
    unfold occursIn at h
    rcases (Bool.or_eq_true _ _).mp h with h1 | h2
    · exact Or.inr ⟨0, by simp, by rw [List.drop_zero, List.cons_append]; exact h1⟩
    · rcases ih h2 with hv | ⟨k, hk, hlead⟩
      · exact Or.inl hv
      · exact Or.inr ⟨k + 1, by simp; omega, hlead⟩

theorem drop_cons_of_lt : ∀ (l : List Char) (k : Nat), k < l.length →
    ∃ a, l.drop k = a :: l.drop (k + 1) := by
  intro l
  induction l with
  | nil => intro k hk; simp at hk
  | cons a t ih =>
    intro k hk
    cases k with
    | zero => exact ⟨a, rfl⟩
    | succ k =>
      rcases ih k (by simp at hk; omega) with ⟨b, hb⟩
      exact ⟨b, hb⟩

theorem win10_suffix_never_leads_win11 :
    ∀ k, k < 10 → leadsWith (List.drop k win10) win11 = false := by decide

theorem win11_suffix_never_leads_win10 :
    ∀ k, k < 10 → leadsWith (List.drop k win11) win10 = false := by decide

/-- No occurrence of the pattern can overlap an emitted replacement block:
an occurrence inside `win11 ++ v` must lie entirely inside v. -/
theorem occursIn_win10_after_block (v : List Char)
    (h : occursIn win10 (win11 ++ v) = true) : occursIn win10 v = true := by
  rcases occursIn_append_elim win10 v win11 h with hv | ⟨k, hk, hlead⟩
  · exact hv
  · have hk10 : k < 10 := by
      have : win11.length = 10 := by decide
      omega
    have hble : (List.drop k win11).length ≤ win10.length := by
      rw [List.length_drop]
      have h1 : win11.length = 10 := by decide
      have h2 : win10.length = 10 := by decide
      omega
    have hl := leadsWith_take_of_append (List.drop k win11) win10 v hlead hble
    rw [win11_suffix_never_leads_win10 k hk10] at hl
    exact absurd hl (by simp)

/-- If a tail-piece of the pattern leads the replaced string at a scan
position that was not itself a match, the same tail-piece led the original
string there. -/
theorem leads_drop_replace :
    ∀ n, ∀ s : List Char, s.length ≤ n → ∀ k, k < 10 →
      leadsWith (List.drop k win10) (replaceWin10 s) = true →
      leadsWith (List.drop k win10) s = true := by
  intro n
  induction n with
  | zero =>
    intro s hs k hk h
    have hnil : s = [] := List.length_eq_zero.mp (Nat.le_zero.mp hs)
    subst hnil
    rw [replaceWin10_nil] at h
    rcases drop_cons_of_lt win10 k (by
        have h10 : win10.length = 10 := by decide
        omega)
      with ⟨a, ha⟩
    rw [ha] at h
    exact absurd h (by simp [leadsWith])
  | succ n ih =>
    intro s hs k hk h
    cases s with
    | nil =>
      rw [replaceWin10_nil] at h
      rcases drop_cons_of_lt win10 k (by
        have h10 : win10.length = 10 := by decide
        omega)
        with ⟨a, ha⟩
      rw [ha] at h
      exact absurd h (by simp [leadsWith])
    | cons c t =>
      rw [replaceWin10_cons] at h
      by_cases hlead : leadsWith win10 (c :: t) = true
      · rw [if_pos hlead] at h
        have hble : (List.drop k win10).length ≤ win11.length := by
          rw [List.length_drop]
          have h1 : win10.length = 10 := by decide
          have h2 : win11.length = 10 := by decide
          omega
        have hl := leadsWith_append_left _ _ _ h hble
        rw [win10_suffix_never_leads_win11 k hk] at hl
        exact absurd hl (by simp)
      · rw [if_neg hlead] at h
        rcases drop_cons_of_lt win10 k (by
        have h10 : win10.length = 10 := by decide
        omega)
          with ⟨a, ha⟩
        rw [ha] at h ⊢
        rw [leadsWith_cons_cons] at h ⊢
        rcases (Bool.and_eq_true _ _).mp h with ⟨hac, htail⟩
        by_cases hk1 : k + 1 < 10
        · have ht : t.length ≤ n := by simp at hs; omega
          have := ih t ht (k + 1) hk1 htail
          rw [hac, this]
          rfl
        · have hk9 : k = 9 := by omega
          subst hk9
          have hdrop : List.drop 10 win10 = [] := by decide
          rw [show (9 : Nat) + 1 = 10 from rfl, hdrop]
          rw [hac]
          rfl

/-- Replacement leaves at least one copy of "Windows 11" whenever the
pattern occurred. -/
theorem replace_emits :
    ∀ n, ∀ s : List Char, s.length ≤ n → occursIn win10 s = true →
      occursIn win11 (replaceWin10 s) = true := by
  intro n
  induction n with
  | zero =>
    intro s hs hocc
    have hnil : s = [] := List.length_eq_zero.mp (Nat.le_zero.mp hs)
    subst hnil
    exact absurd hocc (by decide)
  | succ n ih =>
    intro s hs hocc
    cases s with
    | nil => exact absurd hocc (by decide)
    | cons c t =>
      rw [replaceWin10_cons]
      by_cases hlead : leadsWith win10 (c :: t) = true
      · rw [if_pos hlead]
        exact occursIn_of_leadsWith _ _
          (leadsWith_append win11 win11 _ (leadsWith_refl win11))
      · rw [if_neg hlead]
        unfold occursIn at hocc
        rcases (Bool.or_eq_true _ _).mp hocc with h1 | h2
        · exact absurd h1 hlead
        · have ht : t.length ≤ n := by simp at hs; omega
          exact occursIn_cons_tail _ _ _ (ih t ht h2)

/-- Replacement purges every occurrence of "Windows 10": none remains in
the output, and none can be recreated across a replacement boundary (the
replacement contains no '0', and no suffix of it is a prefix of the
pattern). -/
theorem replace_purges :
    ∀ n, ∀ s : List Char, s.length ≤ n →
      occursIn win10 (replaceWin10 s) = false := by
  intro n
  induction n with
  | zero =>
    intro s hs
    have hnil : s = [] := List.length_eq_zero.mp (Nat.le_zero.mp hs)
    subst hnil
    rw [replaceWin10_nil]
    decide
  | succ n ih =>
    intro s hs
    cases s with
    | nil =>
      rw [replaceWin10_nil]
      decide
    | cons c t =>
      rw [replaceWin10_cons]
      by_cases hlead : leadsWith win10 (c :: t) = true
      · rw [if_pos hlead]
        cases hocc : occursIn win10 (win11 ++ replaceWin10 (t.drop 9)) with
        | false => rfl
        | true =>
          have h2 := occursIn_win10_after_block _ hocc
          have ht : (t.drop 9).length ≤ n := by
            rw [List.length_drop]
            simp at hs
            omega
          rw [ih (t.drop 9) ht] at h2
          exact absurd h2 (by simp)
      · rw [if_neg hlead]
        unfold occursIn
        have ht : t.length ≤ n := by simp at hs; omega
        rw [ih t ht]
        cases hl : leadsWith win10 (c :: replaceWin10 t) with
        | false => rfl
        | true =>
          have hw : win10 = 'W' :: List.drop 1 win10 := by decide
          rw [hw, leadsWith_cons_cons] at hl
          rcases (Bool.and_eq_true _ _).mp hl with ⟨hwc, htail⟩
          have := leads_drop_replace t.length t le_rfl 1 (by omega) htail
          have hlead2 : leadsWith win10 (c :: t) = true := by
            rw [hw, leadsWith_cons_cons, hwc, this]
            rfl
          exact absurd hlead2 hlead

/-- Translation of the product-name correction in
`HardwareInfo::get_os_info` (hardware_info.rs lines 251-256): when the
build number is at least 22000 and the reported name contains
"Windows 10", rewrite that substring to "Windows 11"; otherwise keep the
name unchanged. -/
def resolve_product_name (build : Nat) (name : List Char) : List Char :=
  if 22000 ≤ build ∧ occursIn win10 name = true then replaceWin10 name
  else name

/-- C4: for a build of at least 22000 and a name containing "Windows 10",
the corrected name contains "Windows 11" and no longer contains
"Windows 10"; for lower builds or names without the substring the name
passes through unchanged. -/
theorem os_name_correction (build : Nat) (name : List Char) :
    (22000 ≤ build → occursIn win10 name = true →
      occursIn win11 (resolve_product_name build name) = true
      ∧ occursIn win10 (resolve_product_name build name) = false)
    ∧ (build < 22000 ∨ occursIn win10 name = false →
      resolve_product_name build name = name) := by
  constructor
  · intro hb hocc
    unfold resolve_product_name
    rw [if_pos ⟨hb, hocc⟩]
    exact ⟨replace_emits name.length name le_rfl hocc,
           replace_purges name.length name le_rfl⟩
  · intro h
    unfold resolve_product_name
    rcases h with hb | hocc
    · rw [if_neg (fun hc => absurd hc.1 (by omega))]
    · rw [if_neg (fun hc => by rw [hocc] at hc; exact absurd hc.2 (by simp))]

/-- Witness for C4 at the concrete name "Windows 10 Pro" and build 22000:
the corrected name contains "Windows 11" and no "Windows 10" remains. -/
theorem os_name_correction_witness :
    occursIn win11 (resolve_product_name 22000 "Windows 10 Pro".data) = true
    ∧ occursIn win10 (resolve_product_name 22000 "Windows 10 Pro".data) = false :=
  (os_name_correction 22000 "Windows 10 Pro".data).1 (by omega) (by decide)
